import Mathlib

/-!
# Verification of the FDTD experiment builder (`examples/fdtd/experiment.py`)

A shallow embedding of the experiment-building library: the `Source` and
`Material` value types, the `Experiment` aggregate with its grid of material
indices, the circle/rectangle rasterization operations, and the JSON export.

Python floats are idealized as rationals (`ℚ`); Python `int` is `ℤ`.
Python's `int()` on a float truncates toward zero, which `pyInt` mirrors.
The comparison `sqrt(dx^2 + dy^2) <= radius` of the source is embedded as
`0 ≤ radius ∧ dx^2 + dy^2 ≤ radius^2`, which is equivalent over the reals
because `Real.sqrt s ≤ r ↔ 0 ≤ r ∧ s ≤ r^2` whenever `0 ≤ s`.
A raised Python exception is an `Except.error` carrying the message.
-/

set_option autoImplicit false

namespace FDTD

/-- `Source.__init__(x, y)`: the six attributes, in assignment order. -/
structure Source where
  x : ℚ
  y : ℚ
  t_start : ℚ
  t_cutoff : ℚ
  frequency : ℚ
  phase : ℚ
deriving DecidableEq, Repr

/-- `Source(x, y)` with the defaults of `Source.__init__`. -/
def mkSource (x y : ℚ) : Source :=
  { x := x, y := y, t_start := 0, t_cutoff := 7, frequency := 120e12, phase := 3 }

/-- `Material.__init__`: relative permeability and permittivity. -/
structure Material where
  relative_permeability : ℚ
  relative_permittivity : ℚ
deriving DecidableEq, Repr

/-- `Material.vacuum()`. -/
def Material.vacuum : Material := ⟨1, 1⟩

/-- A list element of `Experiment.sources`: either a `Source` object or — after
`export` has replaced it — the plain attribute dictionary of a `Source`
(which carries the same six fields but is no longer a `Source` object). -/
inductive SourceRepr where
  | obj (s : Source)
  | dict (s : Source)
deriving DecidableEq, Repr

/-- A list element of `Experiment.materials`: a `Material` object or, after
`export`, its plain attribute dictionary. -/
inductive MaterialRepr where
  | obj (m : Material)
  | dict (m : Material)
deriving DecidableEq, Repr

/-- The attributes of `Experiment`, in the assignment order of
`Experiment.__init__` (this order is the key order of `self.__dict__`,
hence of the exported JSON object). -/
structure Experiment where
  tau : ℚ
  t_detect : ℚ
  t_max : ℚ
  dx : ℚ
  sources : List SourceRepr
  materials : List MaterialRepr
  field : List (List ℤ)
deriving DecidableEq, Repr

/-- Python `int()` applied to a (rational-valued) float: truncation toward
zero. -/
def pyInt (q : ℚ) : ℤ :=
  if 0 ≤ q then ⌊q⌋ else -⌊-q⌋

/-- The record built by `Experiment.__init__(width, height, dx, base_material)`
when the divisions succeed: `field` is a list of `int(height/dx)` inner lists,
each of `int(width/dx)` zeros (a Python `range` of a negative int is empty,
matching `Int.toNat`). -/
def expOf (width height dx : ℚ) (base_material : Material) : Experiment :=
  { tau := 100e-15
    t_detect := 14
    t_max := 15
    dx := dx
    sources := [.obj (mkSource (width / 2) (height / 2))]
    materials := [.obj base_material]
    field := List.replicate (pyInt (height / dx)).toNat
      (List.replicate (pyInt (width / dx)).toNat 0) }

/-- `Experiment(width, height, dx, base_material)`. With `dx = 0` the float
division `width / self.dx` raises `ZeroDivisionError` (modelled as `none`);
otherwise construction always succeeds — the constructor performs no
validation. -/
def mkExperiment (width height dx : ℚ) (base_material : Material) :
    Option Experiment :=
  if dx = 0 then none else some (expOf width height dx base_material)

/-- `Experiment.n_columns`: `len(self.field)`. -/
def nColumns (e : Experiment) : ℕ := e.field.length

/-- `Experiment.n_rows`: `0` when the field is empty, else `len(self.field[0])`. -/
def nRows (e : Experiment) : ℕ :=
  match e.field with
  | [] => 0
  | row :: _ => row.length

/-- `len(self.materials)`. -/
def matCount (e : Experiment) : ℕ := e.materials.length

/-- `self.sources.append(s)`. -/
def appendSource (e : Experiment) (s : Source) : Experiment :=
  { e with sources := e.sources ++ [.obj s] }

/-- `self.materials.append(m)`. -/
def appendMaterial (e : Experiment) (m : Material) : Experiment :=
  { e with materials := e.materials ++ [.obj m] }

/-- The condition of `draw_circle` at cell `(c, r)`:
`sqrt((c*dx - x_center)^2 + (r*dx - y_center)^2) <= radius`, embedded
without the square root (equivalent over ℝ since the radicand is
non-negative). -/
def circleCovers (dx x_center y_center radius : ℚ) (c r : ℕ) : Prop :=
  0 ≤ radius ∧
    ((c : ℚ) * dx - x_center) ^ 2 + ((r : ℚ) * dx - y_center) ^ 2 ≤ radius ^ 2

instance (dx x_center y_center radius : ℚ) (c r : ℕ) :
    Decidable (circleCovers dx x_center y_center radius c r) := by
  unfold circleCovers; infer_instance

/-- The condition of `draw_rectangle` at cell `(c, r)`: the chained Python
comparison `x <= c*dx <= x + width and y <= r*dx <= y + height`. -/
def rectCovers (dx x y width height : ℚ) (c r : ℕ) : Prop :=
  (x ≤ (c : ℚ) * dx ∧ (c : ℚ) * dx ≤ x + width) ∧
    (y ≤ (r : ℚ) * dx ∧ (r : ℚ) * dx ≤ y + height)

instance (dx x y width height : ℚ) (c r : ℕ) :
    Decidable (rectCovers dx x y width height c r) := by
  unfold rectCovers; infer_instance

/-- Map a function of the element's index over a list, the index starting
at `k` (the double loop of the draw methods, made functional). -/
def mapIdxFrom {α : Type} (f : ℕ → α → α) : ℕ → List α → List α
  | _, [] => []
  | k, a :: as => f k a :: mapIdxFrom f (k + 1) as

/-- The number of rows the draw loops iterate over: `self.n_rows`, i.e.
the length of `field[0]` (0 for an empty field). -/
def nRowsF (field : List (List ℤ)) : ℕ :=
  match field with
  | [] => 0
  | row :: _ => row.length

/-- The double loop of a draw method: for every `c < len(field)` and every
`r < n_rows`, assign `i` to `field[c][r]` when `covers c r` holds. -/
def paint (covers : ℕ → ℕ → Prop) [∀ c r, Decidable (covers c r)]
    (i : ℤ) (field : List (List ℤ)) : List (List ℤ) :=
  let nr := nRowsF field
  mapIdxFrom
    (fun c row =>
      mapIdxFrom (fun r v => if r < nr ∧ covers c r then i else v) 0 row)
    0 field

/-- `Experiment.draw_circle`: raise when `i_material >= len(self.materials)`
(nothing is written in that case — the check precedes the loop), otherwise
paint every covered cell. Note the check does not reject negative indices. -/
def drawCircle (e : Experiment) (x_center y_center radius : ℚ) (i_material : ℤ) :
    Except String Experiment :=
  if (matCount e : ℤ) ≤ i_material then .error "Material index out of range"
  else .ok { e with
    field := paint (circleCovers e.dx x_center y_center radius) i_material e.field }

/-- `Experiment.draw_rectangle`: same validation as `draw_circle`, painting
the cells inside the axis-aligned rectangle. -/
def drawRectangle (e : Experiment) (x y width height : ℚ) (i_material : ℤ) :
    Except String Experiment :=
  if (matCount e : ℤ) ≤ i_material then .error "Material index out of range"
  else .ok { e with
    field := paint (rectCovers e.dx x y width height) i_material e.field }

/-- A JSON value, as far as the exported document needs: numbers, arrays and
objects whose key order is significant (Python dicts preserve insertion
order, and `json.dump` writes keys in that order). -/
inductive JValue where
  | num (q : ℚ)
  | arr (l : List JValue)
  | obj (l : List (String × JValue))

/-- The comprehension `[s.__dict__ for s in list(data["sources"])]`, element
by element: reading `__dict__` off a `Source` object yields its attribute
dictionary; on a plain dictionary (left behind by a previous export) it
raises `AttributeError`. An empty list raises nothing. -/
def dumpSources : List SourceRepr → Except String (List Source)
  | [] => .ok []
  | .obj s :: rest => (dumpSources rest).map (fun l => s :: l)
  | .dict _ :: _ => .error "AttributeError"

/-- The comprehension `[m.__dict__ for m in list(data["materials"])]`. -/
def dumpMaterials : List MaterialRepr → Except String (List Material)
  | [] => .ok []
  | .obj m :: rest => (dumpMaterials rest).map (fun l => m :: l)
  | .dict _ :: _ => .error "AttributeError"

/-- The JSON object serialized for one source: the keys of `Source.__dict__`
in attribute-assignment order. -/
def sourceJson (s : Source) : JValue :=
  .obj [("x", .num s.x), ("y", .num s.y), ("t_start", .num s.t_start),
    ("t_cutoff", .num s.t_cutoff), ("frequency", .num s.frequency),
    ("phase", .num s.phase)]

/-- The JSON object serialized for one material. -/
def materialJson (m : Material) : JValue :=
  .obj [("relative_permeability", .num m.relative_permeability),
    ("relative_permittivity", .num m.relative_permittivity)]

/-- `json.dump(data, ...)` where `data` is `self.__dict__` after the two
comprehensions replaced `sources` and `materials`: keys in the assignment
order of `Experiment.__init__`. -/
def exportJson (e : Experiment) (ss : List Source) (ms : List Material) : JValue :=
  .obj [("tau", .num e.tau), ("t_detect", .num e.t_detect),
    ("t_max", .num e.t_max), ("dx", .num e.dx),
    ("sources", .arr (ss.map sourceJson)),
    ("materials", .arr (ms.map materialJson)),
    ("field", .arr (e.field.map (fun row => .arr (row.map (fun v => .num (v : ℚ))))))]

/-- `Experiment.export`. `data = self.__dict__` aliases the experiment's own
attribute dictionary, so the two comprehension assignments MUTATE the
experiment: `sources` and `materials` become lists of plain dictionaries.
The returned pair is (the outcome of the call, the experiment afterwards);
when the `sources` comprehension raises, `materials` is untouched, and when
the `materials` comprehension raises, `sources` has already been replaced. -/
def exportExperiment (e : Experiment) : Except String JValue × Experiment :=
  match dumpSources e.sources, dumpMaterials e.materials with
  | .error msg, _ => (.error msg, e)
  | .ok ss, .error msg => (.error msg, { e with sources := ss.map SourceRepr.dict })
  | .ok ss, .ok ms =>
    (.ok (exportJson e ss ms),
      { e with sources := ss.map SourceRepr.dict
               materials := ms.map MaterialRepr.dict })

/-- The serialized document as §6 of the specification words it: a single
object with exactly the top-level keys `tau`, `t_detect`, `t_max`, `dx`,
`sources`, `materials`, `field`; `sources` an array of objects with the six
fields `x, y, t_start, t_cutoff, frequency, phase` in in-memory list order;
`materials` an array of objects with `relative_permeability` and
`relative_permittivity` in in-memory list order; `field` a nested array,
outer index = column, inner index = row. Written from the spec for
comparison with the code's `export`. -/
def specDocument (tau t_detect t_max dx : ℚ) (sources : List Source)
    (materials : List Material) (field : List (List ℤ)) : JValue :=
  .obj [("tau", .num tau), ("t_detect", .num t_detect), ("t_max", .num t_max),
    ("dx", .num dx),
    ("sources", .arr (sources.map (fun s =>
      .obj [("x", .num s.x), ("y", .num s.y), ("t_start", .num s.t_start),
        ("t_cutoff", .num s.t_cutoff), ("frequency", .num s.frequency),
        ("phase", .num s.phase)]))),
    ("materials", .arr (materials.map (fun m =>
      .obj [("relative_permeability", .num m.relative_permeability),
        ("relative_permittivity", .num m.relative_permittivity)]))),
    ("field", .arr (field.map (fun column => .arr (column.map (fun v => .num (v : ℚ))))))]

/-- One mutating operation on an existing `Experiment` (the builder calls
available after construction and before export). -/
inductive Op where
  | addMaterial (m : Material)
  | addSource (s : Source)
  | drawCircle (x_center y_center radius : ℚ) (i_material : ℤ)
  | drawRectangle (x y width height : ℚ) (i_material : ℤ)

/-- Apply one operation; a raised exception aborts with its message. -/
def applyOp (e : Experiment) : Op → Except String Experiment
  | .addMaterial m => .ok (appendMaterial e m)
  | .addSource s => .ok (appendSource e s)
  | .drawCircle xc yc radius i => drawCircle e xc yc radius i
  | .drawRectangle x y w h i => drawRectangle e x y w h i

/-- Run a straight-line sequence of operations, stopping at the first
raised exception. -/
def runOps (e : Experiment) : List Op → Except String Experiment
  | [] => .ok e
  | op :: ops =>
    match applyOp e op with
    | .error msg => .error msg
    | .ok e₁ => runOps e₁ ops

/-- The value of grid cell `(c, r)`, i.e. `self.field[c][r]` (default 0 out
of range). -/
def cell (e : Experiment) (c r : ℕ) : ℤ :=
  (e.field.getD c []).getD r 0

/-- The grid is rectangular: every inner list has the length of the first
one. Holds for every experiment the builder can actually produce. -/
def wellFormed (e : Experiment) : Prop :=
  ∀ row ∈ e.field, row.length = nRows e

instance (e : Experiment) : Decidable (wellFormed e) := by
  unfold wellFormed; infer_instance

/-- Every cell of the grid holds the value `i`. -/
def allCells (e : Experiment) (i : ℤ) : Prop :=
  ∀ row ∈ e.field, ∀ v ∈ row, v = i

instance (e : Experiment) (i : ℤ) : Decidable (allCells e i) := by
  unfold allCells; infer_instance

/-- Every cell value is strictly below the number of materials. -/
def cellsBelow (e : Experiment) : Prop :=
  ∀ row ∈ e.field, ∀ v ∈ row, v < (matCount e : ℤ)

instance (e : Experiment) : Decidable (cellsBelow e) := by
  unfold cellsBelow; infer_instance

instance {ε α : Type} [DecidableEq ε] [DecidableEq α] : DecidableEq (Except ε α) :=
  fun a b =>
    match a, b with
    | .error x, .error y =>
      if h : x = y then .isTrue (by rw [h]) else .isFalse (fun hh => by cases hh; exact h rfl)
    | .error _, .ok _ => .isFalse (fun hh => by cases hh)
    | .ok _, .error _ => .isFalse (fun hh => by cases hh)
    | .ok x, .ok y =>
      if h : x = y then .isTrue (by rw [h]) else .isFalse (fun hh => by cases hh; exact h rfl)

/-- A 2×2 experiment: `Experiment(2, 2, 1)` with the default vacuum base,
written out literally (`mkExperiment_two` below links it to the
constructor). -/
def expA : Experiment :=
  { tau := 100e-15
    t_detect := 14
    t_max := 15
    dx := 1
    sources := [.obj (mkSource 1 1)]
    materials := [.obj Material.vacuum]
    field := [[0, 0], [0, 0]] }

/-- `expA` after appending a second material. -/
def expB : Experiment := appendMaterial expA ⟨2, 2⟩

/-- A non-square experiment: `Experiment(1, 3, 1)` — grid of 3 columns and
1 row — written out literally (`mkExperiment_oneThree` links it to the
constructor). -/
def expC₀ : Experiment :=
  { tau := 100e-15
    t_detect := 14
    t_max := 15
    dx := 1
    sources := [.obj (mkSource (1 / 2) (3 / 2))]
    materials := [.obj Material.vacuum]
    field := [[0], [0], [0]] }

/-- `expC₀` after appending a second material. -/
def expC : Experiment := appendMaterial expC₀ ⟨2, 2⟩

/-- `expB` after appending a third material. -/
def expD : Experiment := appendMaterial expB ⟨3, 3⟩

/-- `expB` after `draw_circle(0, 0, 1, 1)`: the three cells within distance 1
of the origin hold 1. -/
def expBc : Experiment := { expB with field := [[1, 1], [1, 0]] }

/-- `expD` after `draw_rectangle(0, 0, 2, 2, 1)`: every cell holds 1. -/
def expDr : Experiment := { expD with field := [[1, 1], [1, 1]] }

/-- `expDr` after `draw_circle(0, 0, 1, 2)`: the cells within distance 1 of
the origin hold 2, the remaining cell keeps 1. -/
def expDc : Experiment := { expD with field := [[2, 2], [2, 1]] }

/-- The state of `expA` after a first export: sources and materials have
become lists of plain attribute dictionaries. -/
def expAd : Experiment :=
  { expA with sources := [SourceRepr.dict (mkSource 1 1)]
              materials := [MaterialRepr.dict Material.vacuum] }

/-- The document a first export of `expA` produces. -/
def docA : JValue :=
  specDocument expA.tau expA.t_detect expA.t_max expA.dx [mkSource 1 1]
    [Material.vacuum] expA.field

/-! ## Helper lemmas about the indexed map and the paint loop -/

theorem mapIdxFrom_length {α : Type} (f : ℕ → α → α) (k : ℕ) (l : List α) :
    (mapIdxFrom f k l).length = l.length := by
  induction l generalizing k with
  | nil => rfl
  | cons a as ih => simp [mapIdxFrom, ih]

theorem mapIdxFrom_getD {α : Type} (f : ℕ → α → α) (l : List α) (k n : ℕ) (d : α)
    (h : n < l.length) :
    (mapIdxFrom f k l).getD n d = f (k + n) (l.getD n d) := by
  induction l generalizing k n with
  | nil => simp at h
  | cons a as ih =>
    cases n with
    | zero => simp [mapIdxFrom]
    | succ n =>
      simp only [mapIdxFrom, List.getD_cons_succ]
      rw [ih _ _ (by simpa using h)]
      congr 1
      omega

theorem mem_mapIdxFrom_idx {α : Type} (f : ℕ → α → α) (k : ℕ) (l : List α) (v d : α)
    (h : v ∈ mapIdxFrom f k l) :
    ∃ n, n < l.length ∧ v = f (k + n) (l.getD n d) := by
  induction l generalizing k with
  | nil => simp [mapIdxFrom] at h
  | cons b as ih =>
    simp only [mapIdxFrom, List.mem_cons] at h
    rcases h with h | h
    · exact ⟨0, by simp, by simpa using h⟩
    · obtain ⟨n, hn, hv⟩ := ih (k + 1) h
      refine ⟨n + 1, by simpa using hn, ?_⟩
      rw [List.getD_cons_succ, hv]
      congr 1
      omega

theorem getD_mem {α : Type} (l : List α) (n : ℕ) (d : α) (h : n < l.length) :
    l.getD n d ∈ l := by
  rw [List.getD_eq_getElem l d h]
  exact l.getElem_mem h

theorem paint_length (covers : ℕ → ℕ → Prop) [∀ c r, Decidable (covers c r)]
    (i : ℤ) (field : List (List ℤ)) :
    (paint covers i field).length = field.length := by
  simp [paint, mapIdxFrom_length]

theorem cell_paint (covers : ℕ → ℕ → Prop) [∀ c r, Decidable (covers c r)]
    (i : ℤ) (field : List (List ℤ)) (c r : ℕ) (hc : c < field.length)
    (hrow : (field.getD c []).length = nRowsF field) (hr : r < nRowsF field) :
    ((paint covers i field).getD c []).getD r 0 =
      if covers c r then i else (field.getD c []).getD r 0 := by
  unfold paint
  rw [mapIdxFrom_getD _ _ 0 c [] hc]
  rw [mapIdxFrom_getD _ _ 0 r 0 (by rw [hrow]; exact hr)]
  simp [hr]

theorem mem_paint (covers : ℕ → ℕ → Prop) [∀ c r, Decidable (covers c r)]
    (i : ℤ) (field : List (List ℤ)) (row : List ℤ) (v : ℤ)
    (hrow : row ∈ paint covers i field) (hv : v ∈ row) :
    v = i ∨ ∃ row₀ ∈ field, v ∈ row₀ := by
  simp only [paint] at hrow
  obtain ⟨c, hc, rfl⟩ := mem_mapIdxFrom_idx _ 0 field row [] hrow
  obtain ⟨r, hr, rfl⟩ := mem_mapIdxFrom_idx _ 0 (field.getD c []) v 0 hv
  by_cases hcond : 0 + r < nRowsF field ∧ covers (0 + c) (0 + r)
  · left; rw [if_pos hcond]
  · right
    refine ⟨field.getD c [], getD_mem field c [] hc, ?_⟩
    simp only [if_neg hcond]
    exact getD_mem _ r 0 hr

theorem paint_row_length (covers : ℕ → ℕ → Prop) [∀ c r, Decidable (covers c r)]
    (i : ℤ) (field : List (List ℤ)) (c : ℕ) (hc : c < field.length) :
    ((paint covers i field).getD c []).length = (field.getD c []).length := by
  unfold paint
  rw [mapIdxFrom_getD _ _ 0 c [] hc, mapIdxFrom_length]

theorem allCells_paint (covers : ℕ → ℕ → Prop) [∀ c r, Decidable (covers c r)]
    (i : ℤ) (field : List (List ℤ))
    (hw : ∀ row ∈ field, row.length = nRowsF field)
    (hcov : ∀ c r : ℕ, c < field.length → r < nRowsF field → covers c r) :
    ∀ row ∈ paint covers i field, ∀ v ∈ row, v = i := by
  intro row hrow v hv
  simp only [paint] at hrow
  obtain ⟨c, hc, rfl⟩ := mem_mapIdxFrom_idx _ 0 field row [] hrow
  obtain ⟨r, hr, rfl⟩ := mem_mapIdxFrom_idx _ 0 (field.getD c []) v 0 hv
  have hlen : (field.getD c []).length = nRowsF field :=
    hw _ (getD_mem field c [] hc)
  have hrnr : r < nRowsF field := hlen ▸ hr
  have : 0 + r < nRowsF field ∧ covers (0 + c) (0 + r) := by
    constructor
    · simpa using hrnr
    · simpa using hcov c r hc hrnr
  rw [if_pos this]

/-! ## Success shapes of the draw methods -/

theorem drawCircle_ok (e : Experiment) (xc yc radius : ℚ) (i : ℤ)
    (hi : i < (matCount e : ℤ)) :
    drawCircle e xc yc radius i =
      .ok { e with field := paint (circleCovers e.dx xc yc radius) i e.field } := by
  unfold drawCircle
  rw [if_neg (by omega)]

theorem drawRectangle_ok (e : Experiment) (x y w h : ℚ) (i : ℤ)
    (hi : i < (matCount e : ℤ)) :
    drawRectangle e x y w h i =
      .ok { e with field := paint (rectCovers e.dx x y w h) i e.field } := by
  unfold drawRectangle
  rw [if_neg (by omega)]

theorem drawCircle_ok_inv (e e₂ : Experiment) (xc yc radius : ℚ) (i : ℤ)
    (h : drawCircle e xc yc radius i = .ok e₂) :
    i < (matCount e : ℤ) ∧
      e₂ = { e with field := paint (circleCovers e.dx xc yc radius) i e.field } := by
  unfold drawCircle at h
  by_cases hle : (matCount e : ℤ) ≤ i
  · rw [if_pos hle] at h; cases h
  · rw [if_neg hle] at h
    cases h
    exact ⟨by omega, rfl⟩

theorem drawRectangle_ok_inv (e e₂ : Experiment) (x y w h : ℚ) (i : ℤ)
    (hok : drawRectangle e x y w h i = .ok e₂) :
    i < (matCount e : ℤ) ∧
      e₂ = { e with field := paint (rectCovers e.dx x y w h) i e.field } := by
  unfold drawRectangle at hok
  by_cases hle : (matCount e : ℤ) ≤ i
  · rw [if_pos hle] at hok; cases hok
  · rw [if_neg hle] at hok
    cases hok
    exact ⟨by omega, rfl⟩

/-- The length of row `c` of a well-formed experiment. -/
theorem wellFormed_row_length (e : Experiment) (hw : wellFormed e) (c : ℕ)
    (hc : c < nColumns e) : (e.field.getD c []).length = nRowsF e.field :=
  hw _ (getD_mem e.field c [] hc)

/-- Cell semantics of a successful `draw_circle`, at the experiment level. -/
theorem cell_drawCircle (e e₂ : Experiment) (xc yc radius : ℚ) (i : ℤ)
    (hw : wellFormed e) (h : drawCircle e xc yc radius i = .ok e₂)
    (c r : ℕ) (hc : c < nColumns e) (hr : r < nRows e) :
    cell e₂ c r = if circleCovers e.dx xc yc radius c r then i else cell e c r := by
  obtain ⟨hi, rfl⟩ := drawCircle_ok_inv e e₂ xc yc radius i h
  exact cell_paint _ i e.field c r hc (wellFormed_row_length e hw c hc) hr

/-- Cell semantics of a successful `draw_rectangle`, at the experiment level. -/
theorem cell_drawRectangle (e e₂ : Experiment) (x y w hgt : ℚ) (i : ℤ)
    (hw : wellFormed e) (h : drawRectangle e x y w hgt i = .ok e₂)
    (c r : ℕ) (hc : c < nColumns e) (hr : r < nRows e) :
    cell e₂ c r = if rectCovers e.dx x y w hgt c r then i else cell e c r := by
  obtain ⟨hi, rfl⟩ := drawRectangle_ok_inv e e₂ x y w hgt i h
  exact cell_paint _ i e.field c r hc (wellFormed_row_length e hw c hc) hr

/-- A successful draw keeps the experiment well-formed and its dimensions. -/
theorem paint_wellFormed (covers : ℕ → ℕ → Prop) [∀ c r, Decidable (covers c r)]
    (i : ℤ) (e : Experiment) (hw : wellFormed e) :
    wellFormed { e with field := paint covers i e.field } := by
  intro row hrow
  simp only [paint] at hrow
  obtain ⟨c, hc, rfl⟩ := mem_mapIdxFrom_idx _ 0 e.field row [] hrow
  show (mapIdxFrom _ 0 (e.field.getD c [])).length = _
  rw [mapIdxFrom_length]
  rw [hw _ (getD_mem e.field c [] hc)]
  show nRowsF e.field = nRows { e with field := paint covers i e.field }
  show nRowsF e.field = nRowsF (paint covers i e.field)
  cases hf : e.field with
  | nil => simp [hf, paint, mapIdxFrom, nRowsF]
  | cons row₀ rest =>
    simp only [paint, hf, mapIdxFrom, nRowsF]
    rw [mapIdxFrom_length]

/-! ## Preservation of the cell-value bound -/

theorem cellsBelow_appendMaterial (e : Experiment) (m : Material)
    (h : cellsBelow e) : cellsBelow (appendMaterial e m) := by
  intro row hrow v hv
  have hb := h row hrow v hv
  have : matCount (appendMaterial e m) = matCount e + 1 := by
    simp [appendMaterial, matCount]
  rw [this]
  push_cast
  omega

theorem cellsBelow_appendSource (e : Experiment) (s : Source)
    (h : cellsBelow e) : cellsBelow (appendSource e s) := h

theorem cellsBelow_paint (covers : ℕ → ℕ → Prop) [∀ c r, Decidable (covers c r)]
    (i : ℤ) (e : Experiment) (hi : i < (matCount e : ℤ)) (h : cellsBelow e) :
    cellsBelow { e with field := paint covers i e.field } := by
  intro row hrow v hv
  rcases mem_paint covers i e.field row v hrow hv with rfl | ⟨row₀, h₀, hv₀⟩
  · exact hi
  · exact h row₀ h₀ v hv₀

theorem cellsBelow_applyOp (e e₂ : Experiment) (op : Op)
    (h : cellsBelow e) (hop : applyOp e op = .ok e₂) : cellsBelow e₂ := by
  cases op with
  | addMaterial m =>
    cases hop
    exact cellsBelow_appendMaterial e m h
  | addSource s =>
    cases hop
    exact cellsBelow_appendSource e s h
  | drawCircle xc yc radius i =>
    obtain ⟨hi, rfl⟩ := drawCircle_ok_inv e e₂ xc yc radius i hop
    exact cellsBelow_paint _ i e hi h
  | drawRectangle x y w hgt i =>
    obtain ⟨hi, rfl⟩ := drawRectangle_ok_inv e e₂ x y w hgt i hop
    exact cellsBelow_paint _ i e hi h

theorem cellsBelow_runOps (ops : List Op) (e e₂ : Experiment)
    (h : cellsBelow e) (hrun : runOps e ops = .ok e₂) : cellsBelow e₂ := by
  induction ops generalizing e with
  | nil => cases hrun; exact h
  | cons op rest ih =>
    unfold runOps at hrun
    cases hop : applyOp e op with
    | error msg => rw [hop] at hrun; cases hrun
    | ok e₁ =>
      rw [hop] at hrun
      exact ih e₁ (cellsBelow_applyOp e e₁ op h hop) hrun

theorem cellsBelow_expOf (width height dx : ℚ) (m : Material) :
    cellsBelow (expOf width height dx m) := by
  intro row hrow v hv
  have hrow0 := List.eq_of_mem_replicate hrow
  subst hrow0
  have hv0 := List.eq_of_mem_replicate hv
  subst hv0
  simp [expOf, matCount]

/-! ## Lemmas about the export path -/

theorem dumpSources_objs (ss : List Source) :
    dumpSources (ss.map SourceRepr.obj) = .ok ss := by
  induction ss with
  | nil => rfl
  | cons s rest ih => simp [dumpSources, ih, Except.map]

theorem dumpMaterials_objs (ms : List Material) :
    dumpMaterials (ms.map MaterialRepr.obj) = .ok ms := by
  induction ms with
  | nil => rfl
  | cons m rest ih => simp [dumpMaterials, ih, Except.map]

theorem dumpSources_ok_inv (l : List SourceRepr) (ss : List Source)
    (h : dumpSources l = .ok ss) : l = ss.map SourceRepr.obj := by
  induction l generalizing ss with
  | nil => cases h; rfl
  | cons a rest ih =>
    cases a with
    | obj s =>
      cases hrest : dumpSources rest with
      | error msg =>
        simp only [dumpSources, hrest, Except.map] at h
        cases h
      | ok l₁ =>
        simp only [dumpSources, hrest, Except.map] at h
        cases h
        simp [ih l₁ hrest]
    | dict s => simp [dumpSources] at h

theorem dumpMaterials_ok_inv (l : List MaterialRepr) (ms : List Material)
    (h : dumpMaterials l = .ok ms) : l = ms.map MaterialRepr.obj := by
  induction l generalizing ms with
  | nil => cases h; rfl
  | cons a rest ih =>
    cases a with
    | obj m =>
      cases hrest : dumpMaterials rest with
      | error msg =>
        simp only [dumpMaterials, hrest, Except.map] at h
        cases h
      | ok l₁ =>
        simp only [dumpMaterials, hrest, Except.map] at h
        cases h
        simp [ih l₁ hrest]
    | dict m => simp [dumpMaterials] at h

theorem dumpSources_dicts (ss : List Source) (h : ss ≠ []) :
    dumpSources (ss.map SourceRepr.dict) = .error "AttributeError" := by
  cases ss with
  | nil => exact absurd rfl h
  | cons s rest => rfl

/-- A successful export: the document follows the spec schema and the
experiment's sources and materials have been replaced by plain
dictionaries. -/
theorem exportExperiment_objs (e : Experiment) (ss : List Source)
    (ms : List Material) (hs : e.sources = ss.map SourceRepr.obj)
    (hm : e.materials = ms.map MaterialRepr.obj) :
    exportExperiment e =
      (.ok (specDocument e.tau e.t_detect e.t_max e.dx ss ms e.field),
        { e with sources := ss.map SourceRepr.dict
                 materials := ms.map MaterialRepr.dict }) := by
  simp only [exportExperiment, hs, hm, dumpSources_objs, dumpMaterials_objs]
  rfl

theorem exportExperiment_ok_inv (e : Experiment) (d : JValue) (e₂ : Experiment)
    (h : exportExperiment e = (.ok d, e₂)) :
    ∃ (ss : List Source) (ms : List Material),
      e.sources = ss.map SourceRepr.obj ∧
      e.materials = ms.map MaterialRepr.obj ∧
      e₂ = { e with sources := ss.map SourceRepr.dict
                    materials := ms.map MaterialRepr.dict } := by
  unfold exportExperiment at h
  cases hs : dumpSources e.sources with
  | error msg => rw [hs] at h; cases h
  | ok ss =>
    rw [hs] at h
    cases hm : dumpMaterials e.materials with
    | error msg => rw [hm] at h; cases h
    | ok ms =>
      rw [hm] at h
      cases h
      exact ⟨ss, ms, dumpSources_ok_inv _ _ hs, dumpMaterials_ok_inv _ _ hm, rfl⟩

/-! ## Dimension lemmas -/

theorem nRowsF_paint (covers : ℕ → ℕ → Prop) [∀ c r, Decidable (covers c r)]
    (i : ℤ) (field : List (List ℤ)) :
    nRowsF (paint covers i field) = nRowsF field := by
  cases field with
  | nil => rfl
  | cons row rest =>
    simp only [paint, mapIdxFrom, nRowsF]
    rw [mapIdxFrom_length]

theorem pyInt_of_nonneg (q : ℚ) (h : 0 ≤ q) : pyInt q = ⌊q⌋ := if_pos h

theorem nRows_of_field (e : Experiment) (k : ℕ) (row : List ℤ)
    (hf : e.field = List.replicate (k + 1) row) : nRows e = row.length := by
  unfold nRows
  rw [hf, List.replicate_succ]

theorem wellFormed_of_replicate (e : Experiment) (n : ℕ) (inner : List ℤ)
    (hf : e.field = List.replicate n inner) : wellFormed e := by
  intro row hrow
  rw [hf] at hrow
  have hrw := List.eq_of_mem_replicate hrow
  subst hrw
  unfold nRows
  rw [hf]
  cases n with
  | zero => simp at hrow
  | succ n => rw [List.replicate_succ]

theorem wellFormed_expOf (w h dx : ℚ) (m : Material) :
    wellFormed (expOf w h dx m) :=
  wellFormed_of_replicate _ _ _ rfl

/-! ## Concrete evaluation lemmas -/

theorem pyInt_intCast (z : ℤ) : pyInt ((z : ℚ)) = z := by
  unfold pyInt
  by_cases h : (0 : ℚ) ≤ (z : ℚ)
  · rw [if_pos h, Int.floor_intCast]
  · rw [if_neg h, ← Int.cast_neg, Int.floor_intCast, neg_neg]

theorem pyInt_eval (q : ℚ) (z : ℤ) (h : q = (z : ℚ)) : pyInt q = z := by
  rw [h, pyInt_intCast]

theorem pyInt_between (q : ℚ) (z : ℤ) (h0 : 0 ≤ q) (h₁ : (z : ℚ) ≤ q)
    (h₂ : q < (z : ℚ) + 1) : pyInt q = z := by
  rw [pyInt_of_nonneg _ h0]
  exact Int.floor_eq_iff.mpr ⟨h₁, h₂⟩

/-- `Experiment(2, 2, 1)` is `expA`. -/
theorem mkExperiment_two : mkExperiment 2 2 1 Material.vacuum = some expA := by
  have hp : pyInt ((2 : ℚ) / 1) = 2 := pyInt_eval _ 2 (by norm_num)
  unfold mkExperiment
  rw [if_neg (by norm_num)]
  unfold expOf expA
  rw [hp]
  norm_num [mkSource, List.replicate]

/-- `Experiment(1, 3, 1)` is `expC₀`. -/
theorem mkExperiment_oneThree : mkExperiment 1 3 1 Material.vacuum = some expC₀ := by
  have hp3 : pyInt ((3 : ℚ) / 1) = 3 := pyInt_eval _ 3 (by norm_num)
  have hp1 : pyInt ((1 : ℚ) / 1) = 1 := pyInt_eval _ 1 (by norm_num)
  unfold mkExperiment
  rw [if_neg (by norm_num)]
  unfold expOf expC₀
  rw [hp3, hp1]
  norm_num [List.replicate]

theorem paint_circle_one :
    paint (circleCovers 1 0 0 1) 1 [[0, 0], [0, 0]] = [[1, 1], [1, 0]] := by
  simp only [paint, nRowsF, mapIdxFrom]
  norm_num [circleCovers]

theorem paint_circle_ten_neg :
    paint (circleCovers 1 0 0 10) (-1) [[0, 0], [0, 0]] = [[-1, -1], [-1, -1]] := by
  simp only [paint, nRowsF, mapIdxFrom]
  norm_num [circleCovers]

theorem paint_rect_oneThree :
    paint (rectCovers 1 0 0 1 3) 1 [[0], [0], [0]] = [[1], [1], [0]] := by
  simp only [paint, nRowsF, mapIdxFrom]
  norm_num [rectCovers]

theorem paint_rect_two :
    paint (rectCovers 1 0 0 2 2) 1 [[0, 0], [0, 0]] = [[1, 1], [1, 1]] := by
  simp only [paint, nRowsF, mapIdxFrom]
  norm_num [rectCovers]

theorem paint_circle_one_two :
    paint (circleCovers 1 0 0 1) 2 [[1, 1], [1, 1]] = [[2, 2], [2, 1]] := by
  simp only [paint, nRowsF, mapIdxFrom]
  norm_num [circleCovers]

theorem drawCircle_expB_eval : drawCircle expB 0 0 1 1 = .ok expBc := by
  rw [drawCircle_ok expB 0 0 1 1 (by decide)]
  exact congrArg (fun f => Except.ok { expB with field := f }) paint_circle_one

theorem drawCircle_expA_neg_eval :
    drawCircle expA 0 0 10 (-1) = .ok { expA with field := [[-1, -1], [-1, -1]] } := by
  rw [drawCircle_ok expA 0 0 10 (-1) (by decide)]
  exact congrArg (fun f => Except.ok { expA with field := f }) paint_circle_ten_neg

theorem drawRectangle_expC_eval :
    drawRectangle expC 0 0 1 3 1 = .ok { expC with field := [[1], [1], [0]] } := by
  rw [drawRectangle_ok expC 0 0 1 3 1 (by decide)]
  exact congrArg (fun f => Except.ok { expC with field := f }) paint_rect_oneThree

theorem drawRectangle_expD_eval : drawRectangle expD 0 0 2 2 1 = .ok expDr := by
  rw [drawRectangle_ok expD 0 0 2 2 1 (by decide)]
  exact congrArg (fun f => Except.ok { expD with field := f }) paint_rect_two

theorem drawCircle_expDr_eval : drawCircle expDr 0 0 1 2 = .ok expDc := by
  rw [drawCircle_ok expDr 0 0 1 2 (by decide)]
  exact congrArg (fun f => Except.ok { expDr with field := f }) paint_circle_one_two

/-! ## The claims -/

/-- C1: the claim says `export` does not mutate the Experiment (sources still
`Source` objects, materials still `Material` objects, all fields unchanged).
The code binds `data = self.__dict__` without copying, so the first export
call replaces `sources` and `materials` with lists of plain dictionaries:
on the concrete experiment `Experiment(2, 2, 1)` the call succeeds but the
experiment afterwards differs from the one before, its `sources` and
`materials` now holding dictionaries. -/
theorem c1_export_mutates :
    (exportExperiment expA).1.isOk = true ∧
    (exportExperiment expA).2 ≠ expA ∧
    (exportExperiment expA).2.sources = [SourceRepr.dict (mkSource 1 1)] ∧
    (exportExperiment expA).2.materials = [MaterialRepr.dict Material.vacuum] := by
  rw [exportExperiment_objs expA [mkSource 1 1] [Material.vacuum] rfl rfl]
  refine ⟨rfl, ?_, rfl, rfl⟩
  intro h
  have hs := congrArg Experiment.sources h
  simp [expA] at hs

/-- C2 counterexample: for `Experiment(width=3, height=2, dx=1)` the claim
demands `n_columns = floor(width/dx) = 3`, but the code yields
`n_columns = 2` (the constructor sizes the outer list by `height`). -/
theorem c2_counterexample :
    ⌊(3 : ℚ) / 1⌋ = 3 ∧
    (mkExperiment 3 2 1 Material.vacuum).map (fun e => (nColumns e : ℤ)) =
      some 2 := by
  constructor
  · rw [show (3 : ℚ) / 1 = ((3 : ℤ) : ℚ) by norm_num, Int.floor_intCast]
  · unfold mkExperiment
    rw [if_neg (by norm_num)]
    simp only [Option.map_some']
    have hcol : nColumns (expOf 3 2 1 Material.vacuum) = 2 := by
      show (List.replicate (pyInt ((2 : ℚ) / 1)).toNat
        (List.replicate (pyInt ((3 : ℚ) / 1)).toNat 0)).length = 2
      rw [pyInt_eval _ 2 (by norm_num), List.length_replicate]
      rfl
    rw [hcol]
    norm_num

/-- C2 (amended): for `width, height, dx > 0` with `dx ≤ min(width, height)`,
construction succeeds and produces a grid with
`n_columns = floor(height/dx)`, `n_rows = floor(width/dx)` — the axes are
swapped relative to the claim — and every cell equal to 0. -/
theorem c2_grid_dimensions (w h dx : ℚ) (m : Material) (hwp : 0 < w)
    (hhp : 0 < h) (hdx : 0 < dx) (hdw : dx ≤ w) (hdh : dx ≤ h) :
    mkExperiment w h dx m = some (expOf w h dx m) ∧
    (nColumns (expOf w h dx m) : ℤ) = ⌊h / dx⌋ ∧
    (nRows (expOf w h dx m) : ℤ) = ⌊w / dx⌋ ∧
    allCells (expOf w h dx m) 0 := by
  have hdx0 : dx ≠ 0 := ne_of_gt hdx
  have hqh : (0 : ℚ) ≤ h / dx := le_of_lt (div_pos hhp hdx)
  have hqw : (0 : ℚ) ≤ w / dx := le_of_lt (div_pos hwp hdx)
  have hfh : 1 ≤ ⌊h / dx⌋ := by
    rw [Int.le_floor]
    push_cast
    rw [one_le_div hdx]
    exact hdh
  have hfw : 1 ≤ ⌊w / dx⌋ := by
    rw [Int.le_floor]
    push_cast
    rw [one_le_div hdx]
    exact hdw
  refine ⟨?_, ?_, ?_, ?_⟩
  · unfold mkExperiment
    rw [if_neg hdx0]
  · show ((List.replicate (pyInt (h / dx)).toNat
      (List.replicate (pyInt (w / dx)).toNat 0)).length : ℤ) = ⌊h / dx⌋
    rw [List.length_replicate, pyInt_of_nonneg _ hqh,
      Int.toNat_of_nonneg (by omega)]
  · have hk : (expOf w h dx m).field =
        List.replicate ((⌊h / dx⌋.toNat - 1) + 1)
          (List.replicate (pyInt (w / dx)).toNat 0) := by
      show List.replicate (pyInt (h / dx)).toNat _ = _
      rw [pyInt_of_nonneg _ hqh]
      congr 1
      omega
    rw [nRows_of_field _ _ _ hk, List.length_replicate, pyInt_of_nonneg _ hqw,
      Int.toNat_of_nonneg (by omega)]
  · intro row hrow v hv
    have hrw := List.eq_of_mem_replicate hrow
    subst hrw
    exact List.eq_of_mem_replicate hv

/-- C2 witness: the amended dimensions at `Experiment(3, 2, 1)`. -/
theorem c2_witness :
    mkExperiment 3 2 1 Material.vacuum = some (expOf 3 2 1 Material.vacuum) ∧
    (nColumns (expOf 3 2 1 Material.vacuum) : ℤ) = ⌊(2 : ℚ) / 1⌋ ∧
    (nRows (expOf 3 2 1 Material.vacuum) : ℤ) = ⌊(3 : ℚ) / 1⌋ ∧
    allCells (expOf 3 2 1 Material.vacuum) 0 :=
  c2_grid_dimensions 3 2 1 Material.vacuum (by norm_num) (by norm_num)
    (by norm_num) (by norm_num) (by norm_num)

/-- C3 counterexample: the claim says every negative material index raises
`InvalidMaterialIndex`, but the code's check `i_material >= len(materials)`
lets `-1` through: both draw calls succeed on `Experiment(2, 2, 1)`. -/
theorem c3_counterexample :
    (-1 : ℤ) < 0 ∧ (drawCircle expA 0 0 10 (-1)).isOk = true ∧
      (drawRectangle expA 0 0 2 2 (-1)).isOk = true := by
  decide

/-- C3 (amended): `draw_circle`/`draw_rectangle` succeed exactly when
`i_material < len(materials)` — including every negative index — and raise
(with the grid untouched, the check preceding the loop) exactly when
`i_material >= len(materials)`. -/
theorem c3_draw_validation (e : Experiment) (xc yc radius x y w h : ℚ)
    (i : ℤ) (hwf : wellFormed e) :
    ((∃ e₂, drawCircle e xc yc radius i = .ok e₂) ↔ i < (matCount e : ℤ)) ∧
    ((∃ e₂, drawRectangle e x y w h i = .ok e₂) ↔ i < (matCount e : ℤ)) ∧
    ((matCount e : ℤ) ≤ i →
      drawCircle e xc yc radius i = .error "Material index out of range" ∧
      drawRectangle e x y w h i = .error "Material index out of range") := by
  refine ⟨⟨fun hex => ?_, fun hlt => ⟨_, drawCircle_ok e xc yc radius i hlt⟩⟩,
    ⟨fun hex => ?_, fun hlt => ⟨_, drawRectangle_ok e x y w h i hlt⟩⟩,
    fun hle => ?_⟩
  · obtain ⟨e₂, hok⟩ := hex
    exact (drawCircle_ok_inv e e₂ xc yc radius i hok).1
  · obtain ⟨e₂, hok⟩ := hex
    exact (drawRectangle_ok_inv e e₂ x y w h i hok).1
  · unfold drawCircle drawRectangle
    rw [if_pos hle, if_pos hle]
    exact ⟨rfl, rfl⟩

/-- C3 witness: at index 5 on a one-material experiment both calls raise. -/
theorem c3_witness :
    drawCircle expA 0 0 10 5 = .error "Material index out of range" ∧
    drawRectangle expA 0 0 2 2 5 = .error "Material index out of range" :=
  (c3_draw_validation expA 0 0 10 0 0 2 2 5 (by decide)).2.2 (by decide)

/-- C4 counterexample: `draw_circle` with index `-1` completes on
`Experiment(2, 2, 1)` and leaves every cell at `-1`, which is not a valid
index into the material table (the claimed lower bound `0 ≤ v` fails). -/
theorem c4_counterexample :
    (runOps expA [Op.drawCircle 0 0 10 (-1)]).map Experiment.field =
      .ok [[-1, -1], [-1, -1]] ∧ ¬(0 ≤ (-1 : ℤ)) := by
  refine ⟨?_, by decide⟩
  simp only [runOps, applyOp, drawCircle_expA_neg_eval, Except.map]

/-- C4 (amended): after any completed sequence of operations on a constructed
Experiment, every cell value `v` satisfies `v < len(materials)`; the lower
bound `0 ≤ v` can fail because negative draw indices are accepted. -/
theorem c4_cell_bound (w h dx : ℚ) (m : Material) (ops : List Op)
    (e₀ e₂ : Experiment) (hmk : mkExperiment w h dx m = some e₀)
    (hrun : runOps e₀ ops = .ok e₂) : cellsBelow e₂ := by
  have he : e₀ = expOf w h dx m := by
    unfold mkExperiment at hmk
    by_cases h0 : dx = 0
    · rw [if_pos h0] at hmk
      cases hmk
    · rw [if_neg h0] at hmk
      cases hmk
      rfl
  subst he
  exact cellsBelow_runOps ops _ e₂ (cellsBelow_expOf w h dx m) hrun

/-- C4 witness: the bound after appending a material and drawing a circle. -/
theorem c4_witness : cellsBelow expBc :=
  c4_cell_bound 2 2 1 Material.vacuum
    [Op.addMaterial ⟨2, 2⟩, Op.drawCircle 0 0 1 1] expA expBc
    mkExperiment_two
    (by simp only [runOps, applyOp, show appendMaterial expA ⟨2, 2⟩ = expB from rfl,
      drawCircle_expB_eval])

/-- C5 counterexample: the claim says construction fails with
`InvalidDomainError` when a computed dimension is 0 or `dx <= 0`; the code
validates nothing: `Experiment(1, 1, 2)` succeeds with a zero-sized grid and
`Experiment(1, 1, -1)` succeeds as well. -/
theorem c5_counterexample :
    (mkExperiment 1 1 2 Material.vacuum).map nColumns = some 0 ∧
    (mkExperiment 1 1 (-1) Material.vacuum).isSome = true := by
  constructor
  · unfold mkExperiment
    rw [if_neg (by norm_num)]
    simp only [Option.map_some']
    have hp : pyInt ((1 : ℚ) / 2) = 0 :=
      pyInt_between _ 0 (by norm_num) (by norm_num) (by norm_num)
    have hcol : nColumns (expOf 1 1 2 Material.vacuum) = 0 := by
      show (List.replicate (pyInt ((1 : ℚ) / 2)).toNat
        (List.replicate (pyInt ((1 : ℚ) / 2)).toNat 0)).length = 0
      rw [hp, List.length_replicate]
      rfl
    rw [hcol]
  · unfold mkExperiment
    rw [if_neg (by norm_num)]
    rfl

/-- C5 (amended): construction fails only when `dx = 0` (a float division by
zero); for every other input — negative `dx` and zero-sized grids included —
an Experiment is returned. -/
theorem c5_construction_total (w h dx : ℚ) (m : Material) :
    (mkExperiment w h dx m).isSome = true ↔ dx ≠ 0 := by
  unfold mkExperiment
  by_cases h0 : dx = 0
  · rw [if_pos h0]
    simp [h0]
  · rw [if_neg h0]
    simp [h0]

/-- C5 witness: construction succeeds at `dx = -1`. -/
theorem c5_witness : (mkExperiment 1 1 (-1) Material.vacuum).isSome = true :=
  (c5_construction_total 1 1 (-1) Material.vacuum).mpr (by norm_num)

/-- C6 counterexample: on the non-square `Experiment(1, 3, 1)` (grid 3×1,
second material appended), `draw_rectangle(0, 0, width, height, 1)` =
`draw_rectangle(0, 0, 1, 3, 1)` leaves cell `(2, 0)` at 0, because the cell's
physical x-position `2·dx = 2` exceeds `width = 1` — the rectangle equivalent
claimed does not cover the whole domain. -/
theorem c6_counterexample :
    nColumns expC = 3 ∧ nRows expC = 1 ∧
    (drawRectangle expC 0 0 1 3 1).map (fun e => cell e 2 0) = .ok 0 ∧
    (0 : ℤ) ≠ 1 := by
  refine ⟨by decide, by decide, ?_, by decide⟩
  rw [drawRectangle_expC_eval]
  rfl

/-- C6 (amended): `draw_circle` with a radius large enough that every cell's
distance to the center is within it sets every cell to `m`; and
`draw_rectangle(0, 0, W, H, m)` sets every cell to `m` provided every cell
position `(c·dx, r·dx)` lies inside `[0, W] × [0, H]` — which
`(W, H) = (width, height)` need not satisfy on a non-square domain. -/
theorem c6_full_coverage (e : Experiment) (i : ℤ) (xc yc radius W H : ℚ)
    (hwf : wellFormed e) (hi : i < (matCount e : ℤ))
    (hcirc : ∀ c : ℕ, c < nColumns e → ∀ r : ℕ, r < nRows e →
      circleCovers e.dx xc yc radius c r)
    (hrect : ∀ c : ℕ, c < nColumns e → ∀ r : ℕ, r < nRows e →
      rectCovers e.dx 0 0 W H c r) :
    (∃ e₂, drawCircle e xc yc radius i = .ok e₂ ∧ allCells e₂ i) ∧
    (∃ e₂, drawRectangle e 0 0 W H i = .ok e₂ ∧ allCells e₂ i) := by
  constructor
  · refine ⟨_, drawCircle_ok e xc yc radius i hi, ?_⟩
    exact allCells_paint _ i e.field hwf (fun c r hc hr => hcirc c hc r hr)
  · refine ⟨_, drawRectangle_ok e 0 0 W H i hi, ?_⟩
    exact allCells_paint _ i e.field hwf (fun c r hc hr => hrect c hc r hr)

/-- C6 witness: on `expB` a radius-10 circle and a `10 × 10` rectangle both
cover the whole 2×2 domain and paint every cell with material 1. -/
theorem c6_witness :
    (∃ e₂, drawCircle expB 0 0 10 1 = .ok e₂ ∧ allCells e₂ 1) ∧
    (∃ e₂, drawRectangle expB 0 0 10 10 1 = .ok e₂ ∧ allCells e₂ 1) :=
  c6_full_coverage expB 1 0 0 10 10 10 (by decide) (by decide)
    (by
      intro c hc r hr
      have hc2 : c < 2 := hc
      have hr2 : r < 2 := hr
      interval_cases c <;> interval_cases r <;>
        norm_num [circleCovers, show expB.dx = 1 from rfl])
    (by
      intro c hc r hr
      have hc2 : c < 2 := hc
      have hr2 : r < 2 := hr
      interval_cases c <;> interval_cases r <;>
        norm_num [rectCovers, show expB.dx = 1 from rfl])

/-- C7: after a successful `draw_circle(x_center, y_center, radius, i)`, a
cell `(c, r)` holds `i` when the Euclidean distance from `(c·dx, r·dx)` to
the center is within the radius, and otherwise keeps its previous value. -/
theorem c7_circle_cell_semantics (e e₂ : Experiment) (xc yc radius : ℚ)
    (i : ℤ) (hwf : wellFormed e) (h : drawCircle e xc yc radius i = .ok e₂) :
    ∀ c : ℕ, c < nColumns e → ∀ r : ℕ, r < nRows e →
      cell e₂ c r = if circleCovers e.dx xc yc radius c r then i
        else cell e c r :=
  fun c hc r hr => cell_drawCircle e e₂ xc yc radius i hwf h c r hc hr

/-- C7 witness: the circle of radius 1 at the origin on `expB`. -/
theorem c7_witness :
    cell expBc 1 1 = (if circleCovers expB.dx 0 0 1 1 1 then 1
      else cell expB 1 1) ∧
    cell expBc 0 0 = (if circleCovers expB.dx 0 0 1 0 0 then 1
      else cell expB 0 0) :=
  ⟨c7_circle_cell_semantics expB expBc 0 0 1 1 (by decide) drawCircle_expB_eval
      1 (by decide) 1 (by decide),
    c7_circle_cell_semantics expB expBc 0 0 1 1 (by decide) drawCircle_expB_eval
      0 (by decide) 0 (by decide)⟩

/-- C8: last write wins — after a rectangle with `i₁` and then a circle with
`i₂`, every circle-covered cell holds `i₂` and every rectangle-covered cell
outside the circle holds `i₁`. -/
theorem c8_last_write_wins (e e₁ e₂ : Experiment) (x y w hgt xc yc radius : ℚ)
    (i₁ i₂ : ℤ) (hwf : wellFormed e)
    (h₁ : drawRectangle e x y w hgt i₁ = .ok e₁)
    (h₂ : drawCircle e₁ xc yc radius i₂ = .ok e₂) :
    ∀ c : ℕ, c < nColumns e → ∀ r : ℕ, r < nRows e →
      (circleCovers e.dx xc yc radius c r → cell e₂ c r = i₂) ∧
      (rectCovers e.dx x y w hgt c r → ¬circleCovers e.dx xc yc radius c r →
        cell e₂ c r = i₁) := by
  intro c hc r hr
  obtain ⟨hi₁, he₁⟩ := drawRectangle_ok_inv e e₁ x y w hgt i₁ h₁
  have hw₁ : wellFormed e₁ := by
    rw [he₁]
    exact paint_wellFormed _ i₁ e hwf
  have hdx₁ : e₁.dx = e.dx := by rw [he₁]
  have hcol : nColumns e₁ = nColumns e := by
    rw [he₁]
    exact paint_length _ i₁ e.field
  have hrows : nRows e₁ = nRows e := by
    rw [he₁]
    exact nRowsF_paint _ i₁ e.field
  have hcell := cell_drawCircle e₁ e₂ xc yc radius i₂ hw₁ h₂ c r
    (by rw [hcol]; exact hc) (by rw [hrows]; exact hr)
  rw [hdx₁] at hcell
  have hcell₁ := cell_drawRectangle e e₁ x y w hgt i₁ hwf h₁ c r hc hr
  constructor
  · intro hcov
    rw [hcell, if_pos hcov]
  · intro hrcov hncov
    rw [hcell, if_neg hncov, hcell₁, if_pos hrcov]

/-- C8 witness: rectangle with material 1 over the whole 2×2 grid of `expD`,
then a radius-1 circle with material 2 at the origin: the overlap cell
`(0, 0)` holds 2, the non-overlap cell `(1, 1)` holds 1. -/
theorem c8_witness : cell expDc 0 0 = 2 ∧ cell expDc 1 1 = 1 := by
  have happ := c8_last_write_wins expD expDr expDc 0 0 2 2 0 0 1 1 2
    (by decide) drawRectangle_expD_eval drawCircle_expDr_eval
  exact ⟨(happ 0 (by decide) 0 (by decide)).1
      (by norm_num [circleCovers, show expD.dx = 1 from rfl]),
    (happ 1 (by decide) 1 (by decide)).2
      (by norm_num [rectCovers, show expD.dx = 1 from rfl])
      (by norm_num [circleCovers, show expD.dx = 1 from rfl])⟩

/-- C9: the exported document is exactly the spec's schema — the seven
top-level keys in order, sources and materials serialized in list order with
their six resp. two fields, and the field as a nested array. -/
theorem c9_export_schema (e : Experiment) (ss : List Source)
    (ms : List Material) (hs : e.sources = ss.map SourceRepr.obj)
    (hm : e.materials = ms.map MaterialRepr.obj) :
    (exportExperiment e).1 =
      .ok (specDocument e.tau e.t_detect e.t_max e.dx ss ms e.field) := by
  rw [exportExperiment_objs e ss ms hs hm]

/-- C9 witness: the document exported from `expA`. -/
theorem c9_witness :
    (exportExperiment expA).1 =
      .ok (specDocument expA.tau expA.t_detect expA.t_max expA.dx
        [mkSource 1 1] [Material.vacuum] expA.field) :=
  c9_export_schema expA [mkSource 1 1] [Material.vacuum] rfl rfl

/-- C10: once `export` has succeeded on an experiment (whose source list is
never empty: construction seeds one source), every further `export` call
raises, because the first call left plain dictionaries in `sources` and
reading `__dict__` off a dictionary fails with `AttributeError`. -/
theorem c10_second_export_raises (e e₂ : Experiment) (d : JValue)
    (hne : e.sources ≠ []) (h : exportExperiment e = (.ok d, e₂)) :
    (exportExperiment e₂).1 = .error "AttributeError" := by
  obtain ⟨ss, ms, hs, hm, he₂⟩ := exportExperiment_ok_inv e d e₂ h
  have hss : ss ≠ [] := by
    intro h0
    subst h0
    exact hne (by simpa using hs)
  subst he₂
  dsimp only [exportExperiment]
  rw [dumpSources_dicts ss hss]

/-- C10 witness: a second export of `expA` raises. -/
theorem c10_witness : (exportExperiment expAd).1 = .error "AttributeError" :=
  c10_second_export_raises expA expAd docA (by decide)
    (by
      rw [exportExperiment_objs expA [mkSource 1 1] [Material.vacuum] rfl rfl]
      rfl)

end FDTD
